import Mathlib

/-!
# go-healthz: the health-aggregation HTTP service

A shallow embedding of `healthz.go` (package `healthz`) together with the parts of the
Go standard library its two handlers and its constructor rely on:

* `unicode/utf8.DecodeRuneInString` and the string encoder of `encoding/json`;
* the `encoding/json` encoding of the two response structs `Error` and `HTTPResponse`;
* an `http.ResponseWriter` (the recorder of `net/http/httptest`);
* `path.Clean` and the routing of `http.ServeMux`.

Go strings are byte strings: a string is a list of bytes, a byte a natural number
(below 256).  Text constants are written as Lean string literals and turned into
their UTF-8 bytes by `utf8`.

The calls of a handler on the world outside it are explicit: a probe's check is a function
on the world of the probes, the calls on the logger are returned as a list, and `New` gets
and returns the operating environment.
-/

namespace Healthz

/-! ## Byte strings -/

/-- A Go `string` (or `[]byte`): its bytes in order. -/
abbrev GoString := List Nat

/-- The UTF-8 bytes of a text constant. -/
def utf8 (s : String) : GoString :=
  s.toList.flatMap (fun c => (String.utf8EncodeChar c).map UInt8.toNat)

/-! ## unicode/utf8 -/

/-- `utf8.RuneError`, the replacement character U+FFFD. -/
def RuneError : Nat := 0xFFFD
/-- `utf8.RuneSelf`: bytes below it are single-byte runes. -/
def RuneSelf : Nat := 0x80
/-- `utf8.UTFMax`: the longest encoding of a rune, in bytes. -/
def UTFMax : Nat := 4

def maskx : Nat := 0x3F
def mask2 : Nat := 0x1F
def mask3 : Nat := 0x0F
def mask4 : Nat := 0x07
def locb : Nat := 0x80
def hicb : Nat := 0xBF

def xx : Nat := 0xF1
def as : Nat := 0xF0
def s1 : Nat := 0x02
def s2 : Nat := 0x13
def s3 : Nat := 0x03
def s4 : Nat := 0x23
def s5 : Nat := 0x34
def s6 : Nat := 0x04
def s7 : Nat := 0x44

/-- The table `utf8.first`: information about the first byte of an encoding. -/
def first (b : Nat) : Nat :=
  if b < 0x80 then as
  else if b < 0xC2 then xx
  else if b < 0xE0 then s1
  else if b = 0xE0 then s2
  else if b < 0xED then s3
  else if b = 0xED then s4
  else if b < 0xF0 then s3
  else if b = 0xF0 then s5
  else if b < 0xF4 then s6
  else if b = 0xF4 then s7
  else xx

/-- The table `utf8.acceptRanges`: the range (lo, hi) allowed for the second byte. -/
def acceptRanges (i : Nat) : Nat × Nat :=
  match i with
  | 0 => (locb, hicb)
  | 1 => (0xA0, hicb)
  | 2 => (locb, 0x9F)
  | 3 => (0x90, hicb)
  | 4 => (locb, 0x8F)
  | _ => (0, 0)

/-- The function `utf8.DecodeRuneInString`: the first rune of `s` and its width in bytes;
`(RuneError, 0)` for the empty string and `(RuneError, 1)` for an invalid encoding. -/
def DecodeRuneInString (s : GoString) : Nat × Nat :=
  match s with
  | [] => (RuneError, 0)
  | b0 :: t0 =>
    let x := first b0
    if x ≥ as then
      (if x = xx then RuneError else b0, 1)
    else
      let sz := x &&& 7
      let accept := acceptRanges (x >>> 4)
      if s.length < sz then (RuneError, 1)
      else
        match t0 with
        | [] => (RuneError, 1)
        | b1 :: t1 =>
          if b1 < accept.1 ∨ accept.2 < b1 then (RuneError, 1)
          else if sz ≤ 2 then (((b0 &&& mask2) <<< 6) ||| (b1 &&& maskx), 2)
          else
            match t1 with
            | [] => (RuneError, 1)
            | b2 :: t2 =>
              if b2 < locb ∨ hicb < b2 then (RuneError, 1)
              else if sz ≤ 3 then
                (((b0 &&& mask3) <<< 12) ||| ((b1 &&& maskx) <<< 6) ||| (b2 &&& maskx), 3)
              else
                match t2 with
                | [] => (RuneError, 1)
                | b3 :: _ =>
                  if b3 < locb ∨ hicb < b3 then (RuneError, 1)
                  else
                    (((b0 &&& mask4) <<< 18) ||| ((b1 &&& maskx) <<< 12)
                      ||| ((b2 &&& maskx) <<< 6) ||| (b3 &&& maskx), 4)

/-! ## encoding/json: strings -/

/-- The digits `json.hex = "0123456789abcdef"`. -/
def hex (n : Nat) : Nat :=
  (utf8 "0123456789abcdef").getD n 0

/-- The table `json.htmlSafeSet`: the ASCII bytes that a JSON string holds unescaped when
HTML escaping is on: the printable ones but for the double quote, the backslash and the
three HTML characters. -/
def htmlSafeSet (b : Nat) : Bool :=
  decide (0x20 ≤ b) && decide (b < 0x80) &&
    !(b == 0x22 || b == 0x26 || b == 0x3C || b == 0x3E || b == 0x5C)

/-- The escape that `appendString` writes for an ASCII byte outside `htmlSafeSet`
(the `switch b` of its loop), as of Go 1.22; before, the backspace and the form feed were
written `\u0008` and `\u000c`. -/
def escapeByte (b : Nat) : GoString :=
  if b = 0x5C ∨ b = 0x22 then [0x5C, b]
  else if b = 0x08 then utf8 "\\b"
  else if b = 0x0C then utf8 "\\f"
  else if b = 0x0A then utf8 "\\n"
  else if b = 0x0D then utf8 "\\r"
  else if b = 0x09 then utf8 "\\t"
  else utf8 "\\u00" ++ [hex (b >>> 4), hex (b &&& 0xF)]

/-- The loop of `json.appendString` with HTML escaping on, over the bytes `src[i:]` still to
read; the result is what the loop adds to `dst` from there on.  Go copies the bytes that need
no escape in runs (`src[start:i]`); here each is added when it is passed over.  One turn of the
loop reads at least one byte and `fuel` bounds the number of turns. -/
def appendStringLoop : Nat → GoString → GoString
  | 0, _ => []
  | _ + 1, [] => []
  | fuel + 1, b :: rest =>
    if b < RuneSelf then
      if htmlSafeSet b then b :: appendStringLoop fuel rest
      else escapeByte b ++ appendStringLoop fuel rest
    else
      let cs := DecodeRuneInString ((b :: rest).take UTFMax)
      if cs.1 = RuneError ∧ cs.2 = 1 then
        utf8 "\\ufffd" ++ appendStringLoop fuel rest
      else if cs.1 = 0x2028 ∨ cs.1 = 0x2029 then
        utf8 "\\u202" ++ [hex (cs.1 &&& 0xF)] ++ appendStringLoop fuel ((b :: rest).drop cs.2)
      else
        (b :: rest).take cs.2 ++ appendStringLoop fuel ((b :: rest).drop cs.2)

/-- The function `json.appendString(dst, src, true)`: `src` as a JSON string literal, between
double quotes, added to `dst`. -/
def appendString (dst src : GoString) : GoString :=
  dst ++ [0x22] ++ appendStringLoop src.length src ++ [0x22]

/-! ## The data model of `healthz.go` -/

/-- A Go `error`: `none` is nil, `some msg` an error whose `Error()` is `msg`. -/
abbrev GoError := Option GoString

/-- A Go slice of `α` that may be nil: `none` is the nil slice. -/
abbrev Slice (α : Type) := Option (List α)

/-- The builtin `append(s, x)`: appending to the nil slice gives a slice of one element. -/
def Slice.append {α : Type} (s : Slice α) (x : α) : Slice α :=
  match s with
  | none => some [x]
  | some xs => some (xs ++ [x])

/-- The builtin `len(s)`. -/
def Slice.len {α : Type} (s : Slice α) : Nat :=
  match s with
  | none => 0
  | some xs => xs.length

/-- The elements a `range` over the slice visits. -/
def Slice.elems {α : Type} (s : Slice α) : List α :=
  match s with
  | none => []
  | some xs => xs

/-- One call on the `logger` interface, with the texts passed to it. -/
inductive LogEntry where
  | Info (args : List GoString)
  | Debug (args : List GoString)
  | Error (args : List GoString)
  | Errorf (format : GoString) (args : List GoString)
  deriving DecidableEq, Repr

/-- A value of the interface `logger`.  What a logger does with its input is up to its
implementation; the handlers return the calls they make on it, in order. -/
structure logger where
  name : String
  deriving DecidableEq, Repr

/-- The interface `HealthCheckable`, for probes living in a world of type `W`: `HealthZ` reads
and changes the world and returns nil or an error.  A check is taken to return; an interface
value that is nil has no counterpart here. -/
structure HealthCheckable (W : Type) where
  HealthZ : W → GoError × W

/-- The struct `ProviderInfo`; the field `Type` is written `Type_`. -/
structure ProviderInfo (W : Type) where
  Check : HealthCheckable W
  Description : GoString
  Type_ : GoString

/-- The struct `Error`; the field `Type` is written `Type_`. -/
structure Error where
  Type_ : GoString
  ErrMsg : GoString
  Description : GoString
  deriving DecidableEq, Repr

/-- The struct `HTTPResponse`. -/
structure HTTPResponse where
  Errors : Slice Error
  Hostname : GoString
  deriving DecidableEq, Repr

/-! ## encoding/json: the two response structs -/

/-- The JSON encoding of an `Error`: its exported fields in declaration order, under their Go
names. -/
def encodeError (dst : GoString) (e : Error) : GoString :=
  let dst := dst ++ utf8 "\x7b\"Type\":"
  let dst := appendString dst e.Type_
  let dst := dst ++ utf8 ",\"ErrMsg\":"
  let dst := appendString dst e.ErrMsg
  let dst := dst ++ utf8 ",\"Description\":"
  let dst := appendString dst e.Description
  dst ++ utf8 "\x7d"

/-- The elements of a JSON array, a comma before each but the first (`i > 0`). -/
def encodeErrorElems (dst : GoString) (isFirst : Bool) : List Error → GoString
  | [] => dst
  | e :: es =>
    let dst := if isFirst then dst else dst ++ utf8 ","
    encodeErrorElems (encodeError dst e) false es

/-- The JSON encoding of a `[]Error`: `null` for the nil slice, an array otherwise. -/
def encodeErrors (dst : GoString) (s : Slice Error) : GoString :=
  match s with
  | none => dst ++ utf8 "null"
  | some es => encodeErrorElems (dst ++ utf8 "[") true es ++ utf8 "]"

/-- The JSON encoding of an `HTTPResponse`. -/
def encodeHTTPResponse (dst : GoString) (resp : HTTPResponse) : GoString :=
  let dst := dst ++ utf8 "\x7b\"Errors\":"
  let dst := encodeErrors dst resp.Errors
  let dst := dst ++ utf8 ",\"Hostname\":"
  let dst := appendString dst resp.Hostname
  dst ++ utf8 "\x7d"

/-! ## net/http: the response writer -/

/-- A response writer, as `httptest.ResponseRecorder` keeps it: the header map, whether the
status line is written, the status code and the body written so far. -/
structure ResponseWriter where
  Header : List (String × String)
  wroteHeader : Bool
  Code : Nat
  Body : GoString
  deriving DecidableEq, Repr

/-- The recorder `httptest.NewRecorder()`: nothing written, `Code` 200. -/
def NewRecorder : ResponseWriter :=
  { Header := [], wroteHeader := false, Code := 200, Body := [] }

def StatusOK : Nat := 200
def StatusMovedPermanently : Nat := 301
def StatusBadRequest : Nat := 400
def StatusNotFound : Nat := 404

/-- The call `w.Header().Set(key, value)`. -/
def ResponseWriter.SetHeader (w : ResponseWriter) (key value : String) : ResponseWriter :=
  { w with Header := (w.Header.filter (fun kv => kv.1 != key)) ++ [(key, value)] }

/-- The method `WriteHeader`: the first call fixes the status code, later calls do nothing. -/
def ResponseWriter.WriteHeader (w : ResponseWriter) (code : Nat) : ResponseWriter :=
  if w.wroteHeader then w else { w with Code := code, wroteHeader := true }

/-- The method `Write`: writes the status line with code 200 unless it is written already, then
adds `buf` to the body; the recorder reports no error.  (The `Content-Type` that the first
`Write` may detect from the body is not modelled.) -/
def ResponseWriter.Write (w : ResponseWriter) (buf : GoString) : ResponseWriter × GoError :=
  let w := w.WriteHeader StatusOK
  ({ w with Body := w.Body ++ buf }, none)

/-- The method `(*json.Encoder).Encode` for an `*HTTPResponse`, on an encoder made by
`json.NewEncoder(w)`: the JSON encoding and a newline, in one `Write`.  Encoding a struct of
strings and a slice of such structs cannot fail, so the error is that of the `Write`. -/
def Encode (w : ResponseWriter) (resp : HTTPResponse) : ResponseWriter × GoError :=
  w.Write (encodeHTTPResponse [] resp ++ utf8 "\n")

/-! ## path.Clean and the path cleaning of net/http -/

/-- The inner loop of the `..` case of `path.Clean`, started with `out.w = w`:
`for out.w > dotdot && out.index(out.w) != '/' { out.w-- }`; the result is the final `out.w`. -/
def cleanBacktrack (out : GoString) (dotdot : Nat) : Nat → Nat
  | 0 => 0
  | w + 1 =>
    if w + 1 > dotdot ∧ out.getD (w + 1) 0 ≠ 0x2F then cleanBacktrack out dotdot w else w + 1

/-- The main loop of `path.Clean` over the bytes `path[r:]` still to read, with the buffer `out`
written so far (its length is `out.w`) and the index `dotdot`.  One turn reads at least one byte
and `fuel` bounds the number of turns. -/
def cleanLoop (rooted : Bool) : Nat → GoString → GoString → Nat → GoString
  | 0, _, out, _ => out
  | _ + 1, [], out, _ => out
  | fuel + 1, c :: rest, out, dotdot =>
    if c = 0x2F then
      -- empty path element
      cleanLoop rooted fuel rest out dotdot
    else if c = 0x2E ∧ (rest = [] ∨ rest.head? = some 0x2F) then
      -- . element
      cleanLoop rooted fuel rest out dotdot
    else if c = 0x2E ∧ rest.head? = some 0x2E ∧
        (rest.tail = [] ∨ rest.tail.head? = some 0x2F) then
      -- .. element: remove to last /
      if out.length > dotdot then
        cleanLoop rooted fuel rest.tail
          (out.take (cleanBacktrack out dotdot (out.length - 1))) dotdot
      else if !rooted then
        let out1 := if out.length > 0 then out ++ [0x2F] else out
        let out2 := out1 ++ [0x2E, 0x2E]
        cleanLoop rooted fuel rest.tail out2 out2.length
      else
        cleanLoop rooted fuel rest.tail out dotdot
    else
      -- real path element: add slash if needed, copy element
      let out1 :=
        if (rooted && out.length != 1) || (!rooted && out.length != 0) then out ++ [0x2F]
        else out
      cleanLoop rooted fuel ((c :: rest).dropWhile (fun b => b != 0x2F))
        (out1 ++ (c :: rest).takeWhile (fun b => b != 0x2F)) dotdot

/-- The function `path.Clean`. -/
def Clean (path : GoString) : GoString :=
  if path = [] then utf8 "."
  else
    let rooted := path.head? = some 0x2F
    let out :=
      if rooted then cleanLoop true path.length path.tail [0x2F] 1
      else cleanLoop false path.length path [] 0
    if out.length = 0 then utf8 "." else out

/-- The function `cleanPath` of net/http: the canonical path for `p`, eliminating `.` and `..`
elements and repeated slashes. -/
def cleanPath (p : GoString) : GoString :=
  if p = [] then utf8 "/"
  else
    let p1 := if p.head? ≠ some 0x2F then 0x2F :: p else p
    let np := Clean p1
    if p1.getLast? = some 0x2F ∧ np ≠ utf8 "/" then
      if p1.length = np.length + 1 ∧ np.isPrefixOf p1 then p1 else np ++ [0x2F]
    else np

/-! ## net/http: requests and the request multiplexer -/

/-- The fields of an `http.Request` that routing reads: the method, `URL.Path`, `RequestURI`,
the protocol version, and the hosts (`URL.Host`, `Host`, and `Host` with its port stripped as
`stripHostPort` returns it). -/
structure Request where
  Method : GoString
  Path : GoString
  RequestURI : GoString
  ProtoMajor : Nat
  ProtoMinor : Nat
  URLHost : GoString
  Host : GoString
  HostNoPort : GoString
  deriving DecidableEq, Repr

/-- The request `http.NewRequest(method, path, nil)` for a target that is a path alone, as the
tests build it. -/
def NewRequest (method path : GoString) : Request :=
  { Method := method, Path := path, RequestURI := [], ProtoMajor := 1, ProtoMinor := 1,
    URLHost := [], Host := [], HostNoPort := [] }

/-- The handlers a mux of this package can hold or return: the two method values
`h.HandleHealthz` and `h.HandleLiveness`, `http.NotFoundHandler()` and
`http.RedirectHandler(url, code)`. -/
inductive Handler where
  | HandleHealthz
  | HandleLiveness
  | NotFound
  | Redirect (url : GoString) (code : Nat)
  deriving DecidableEq, Repr

/-- An entry of the mux: a handler and the pattern it is registered under. -/
structure muxEntry where
  h : Handler
  pattern : GoString
  deriving DecidableEq, Repr

/-- The struct `http.ServeMux`, as of Go 1.21: the map `m` from pattern to entry (as the list
of its entries), the entries `es` whose pattern ends in a slash, longest first, and whether
some pattern names a host. -/
structure ServeMux where
  m : List muxEntry
  es : List muxEntry
  hosts : Bool
  deriving DecidableEq, Repr

/-- The mux `http.NewServeMux()`. -/
def NewServeMux : ServeMux := { m := [], es := [], hosts := false }

/-- The function `appendSorted` of net/http: `e` goes before the first entry with a shorter
pattern. -/
def appendSorted (es : List muxEntry) (e : muxEntry) : List muxEntry :=
  let i := (es.takeWhile (fun x => !decide (x.pattern.length < e.pattern.length))).length
  es.take i ++ [e] ++ es.drop i

/-- The method `(*ServeMux).Handle` for a pattern that is not empty and not registered yet
(otherwise Go panics). -/
def ServeMux.Handle (mux : ServeMux) (pattern : GoString) (handler : Handler) : ServeMux :=
  let e : muxEntry := { h := handler, pattern := pattern }
  { m := mux.m ++ [e],
    es := if pattern.getLast? = some 0x2F then appendSorted mux.es e else mux.es,
    hosts := mux.hosts || (pattern.head? != some 0x2F) }

/-- The lookup `mux.m[path]`. -/
def ServeMux.lookup (mux : ServeMux) (path : GoString) : Option muxEntry :=
  mux.m.find? (fun e => e.pattern == path)

/-- The method `(*ServeMux).match`: the entry for `path` itself, else the longest
pattern ending in a slash that is a prefix of `path`. -/
def ServeMux.matchPath (mux : ServeMux) (path : GoString) : Option muxEntry :=
  match mux.lookup path with
  | some v => some v
  | none => mux.es.find? (fun e => e.pattern.isPrefixOf path)

/-- The method `(*ServeMux).handler`: host-specific patterns first, then generic ones, then the
not-found handler. -/
def ServeMux.handler (mux : ServeMux) (host path : GoString) : Handler × GoString :=
  let r1 := if mux.hosts then mux.matchPath (host ++ path) else none
  let r2 := match r1 with
    | some v => some v
    | none => mux.matchPath path
  match r2 with
  | some v => (v.h, v.pattern)
  | none => (Handler.NotFound, [])

/-- The method `(*ServeMux).shouldRedirectRLocked`: whether `path` is not registered while
`path + "/"` is. -/
def ServeMux.shouldRedirectRLocked (mux : ServeMux) (host path : GoString) : Bool :=
  let p := [path, host ++ path]
  if p.any (fun c => (mux.lookup c).isSome) then false
  else if path.length = 0 then false
  else if p.any (fun c => (mux.lookup (c ++ [0x2F])).isSome) then
    path.getLast? != some 0x2F
  else false

/-- The method `(*ServeMux).Handler`: the handler to use for the request.  The URL a redirect
handler carries is given by its path (the query string is not modelled). -/
def ServeMux.Handler (mux : ServeMux) (r : Request) : Handler × GoString :=
  if r.Method = utf8 "CONNECT" then
    -- CONNECT requests are not canonicalized.
    if mux.shouldRedirectRLocked r.URLHost r.Path then
      (Handler.Redirect (r.Path ++ [0x2F]) StatusMovedPermanently, r.Path ++ [0x2F])
    else mux.handler r.Host r.Path
  else
    -- All other requests have any port stripped and path cleaned.
    let host := r.HostNoPort
    let path := cleanPath r.Path
    if mux.shouldRedirectRLocked host path then
      (Handler.Redirect (path ++ [0x2F]) StatusMovedPermanently, path ++ [0x2F])
    else if path ≠ r.Path then
      (Handler.Redirect path StatusMovedPermanently, (mux.handler host path).2)
    else mux.handler host r.Path

/-- The function `http.Error`. -/
def httpError (w : ResponseWriter) (error : GoString) (code : Nat) : ResponseWriter :=
  let w1 := w.SetHeader "Content-Type" "text/plain; charset=utf-8"
  let w2 := w1.SetHeader "X-Content-Type-Options" "nosniff"
  let w3 := w2.WriteHeader code
  (w3.Write (error ++ utf8 "\n")).1

/-- The function `http.NotFound`. -/
def httpNotFound (w : ResponseWriter) (_r : Request) : ResponseWriter :=
  httpError w (utf8 "404 page not found") StatusNotFound

/-- The function `http.Redirect`, as far as the status line goes (the `Location` header and the
short HTML body of the reply are not modelled). -/
def httpRedirect (w : ResponseWriter) (_r : Request) (_url : GoString) (code : Nat) :
    ResponseWriter :=
  w.WriteHeader code

/-! ## healthz.go -/

/-- A `*log.Logger` of the standard library, as the field `ServerErrorLog` holds one. -/
structure StdLogger where
  name : String
  deriving DecidableEq, Repr

/-- The struct `Config`.  `Log` is an interface value and `ServerErrorLog` a pointer: `none` is
nil.  `Providers` is the list of the elements of the slice. -/
structure Config (W : Type) where
  BindPort : Int
  BindAddr : GoString
  Providers : List (ProviderInfo W)
  Hostname : GoString
  Log : Option logger
  ServerErrorLog : Option StdLogger

/-- The fields of `http.Server` that `New` sets; the durations are in nanoseconds. -/
structure Server where
  Addr : GoString
  ReadTimeout : Nat
  WriteTimeout : Nat
  MaxHeaderBytes : Nat
  Handler : ServeMux
  ErrorLog : Option StdLogger
  deriving DecidableEq, Repr

/-- The struct `HealthChecker`, as `New` returns it: its logger is not nil and its server
is set. -/
structure HealthChecker (W : Type) where
  providers : List (ProviderInfo W)
  Server : Server
  hostname : GoString
  log : logger

/-- The operating environment as far as `New` can reach it: what `os.Hostname()` returns (a name
and an error) and how often it has been called. -/
structure OS where
  hostname : GoString × GoError
  lookups : Nat
  deriving DecidableEq, Repr

/-- The function `os.Hostname`. -/
def osHostname (os : OS) : (GoString × GoError) × OS :=
  (os.hostname, { os with lookups := os.lookups + 1 })

/-- The duration `time.Second`, in nanoseconds. -/
def Second : Nat := 1000000000

/-- What a call of `New` leaves: the checker or the error it returns, the operating environment
after the call, and the calls made on the logger. -/
structure NewResult (W : Type) where
  result : Except GoString (HealthChecker W)
  os : OS
  log : List LogEntry

/-- The part of `New` from `mux := http.NewServeMux()` on, for the hostname settled before. -/
def newServer {W : Type} (config : Config W) (log : logger) (hostname : GoString) :
    HealthChecker W :=
  let mux := NewServeMux
  let mux := mux.Handle (utf8 "/healthz") Handler.HandleHealthz
  let mux := mux.Handle (utf8 "/liveness") Handler.HandleLiveness
  { providers := config.Providers,
    log := log,
    hostname := hostname,
    Server :=
      { Addr := config.BindAddr ++ utf8 ":" ++ utf8 (toString config.BindPort),
        ReadTimeout := Second * 45,
        WriteTimeout := Second * 45,
        MaxHeaderBytes := 1 <<< 20,
        Handler := mux,
        ErrorLog := config.ServerErrorLog } }

/-- The function `New`. -/
def New {W : Type} (config : Config W) (os : OS) : NewResult W :=
  match config.Log with
  | none =>
    { result := Except.error (utf8 "required config option \x27Log\x27 not found"), os := os,
      log := [] }
  | some log =>
    -- Hostname is sent in check results
    if config.Hostname = [] then
      let looked := osHostname os
      match looked.1.2 with
      | some err =>
        { result := Except.error (utf8 "could not detect hostname: " ++ err), os := looked.2,
          log := [] }
      | none =>
        { result := Except.ok (newServer config log looked.1.1), os := looked.2,
          log := [LogEntry.Info [utf8 "autodetected hostname as: ", looked.1.1]] }
    else
      { result := Except.ok (newServer config log config.Hostname), os := os, log := [] }

/-- The loop `for _, provider := range h.providers` of `HandleHealthz`: the response and the
world after the checks of the providers still to visit. -/
def checkProviders {W : Type} :
    List (ProviderInfo W) → HTTPResponse → W → HTTPResponse × W
  | [], resp, world => (resp, world)
  | provider :: rest, resp, world =>
    let called := provider.Check.HealthZ world
    match called.1 with
    | some err =>
      let e : Error :=
        { Type_ := provider.Type_, ErrMsg := err, Description := provider.Description }
      checkProviders rest { resp with Errors := resp.Errors.append e } called.2
    | none => checkProviders rest resp called.2

/-- What a call of `HandleHealthz` leaves: the value of its variable `resp` when it encodes it,
the response writer, the calls made on the logger, and the world of the probes. -/
structure HealthzResult (W : Type) where
  resp : HTTPResponse
  w : ResponseWriter
  log : List LogEntry
  world : W

/-- The method `(*HealthChecker).HandleHealthz`, the http handler for `/healthz`. -/
def HealthChecker.HandleHealthz {W : Type} (h : HealthChecker W) (w : ResponseWriter)
    (_r : Request) (world : W) : HealthzResult W :=
  let resp0 : HTTPResponse := { Errors := none, Hostname := h.hostname }
  -- Check all our health providers
  let checked := checkProviders h.providers resp0 world
  let resp := checked.1
  let log1 :=
    if resp.Errors.len > 0 then
      resp.Errors.elems.map (fun e =>
        LogEntry.Errorf (utf8 "Check failed: %s: %s, error: %s")
          [e.Type_, e.Description, e.ErrMsg])
    else [LogEntry.Debug [utf8 "All checks passed"]]
  let w1 := w.SetHeader "Content-Type" "application/json"
  -- We use result 200 OK regardless of whether there were errors.
  let w2 := w1.WriteHeader StatusOK
  let encoded := Encode w2 resp
  let log2 :=
    match encoded.2 with
    | some err => log1 ++ [LogEntry.Error [err]]
    | none => log1
  { resp := resp, w := encoded.1, log := log2, world := checked.2 }

/-- What a call of a handler leaves: the response writer, the calls made on the logger, and the
world of the probes. -/
structure ServeResult (W : Type) where
  w : ResponseWriter
  log : List LogEntry
  world : W

/-- The method `(*HealthChecker).HandleLiveness`, the http handler for `/liveness`. -/
def HealthChecker.HandleLiveness {W : Type} (_h : HealthChecker W) (w : ResponseWriter)
    (_r : Request) (world : W) : ServeResult W :=
  { w := (w.Write (utf8 "OK")).1, log := [LogEntry.Debug [utf8 "Liveness check: OK"]],
    world := world }

/-- The method `ServeHTTP` of a handler held or returned by the mux of the checker `h`. -/
def Handler.ServeHTTP {W : Type} (hd : Handler) (h : HealthChecker W) (w : ResponseWriter)
    (r : Request) (world : W) : ServeResult W :=
  match hd with
  | Handler.HandleHealthz =>
    let res := h.HandleHealthz w r world
    { w := res.w, log := res.log, world := res.world }
  | Handler.HandleLiveness => h.HandleLiveness w r world
  | Handler.NotFound => { w := httpNotFound w r, log := [], world := world }
  | Handler.Redirect url code => { w := httpRedirect w r url code, log := [], world := world }

/-- The call `h.Server.Handler.ServeHTTP(w, r)`: the method `(*ServeMux).ServeHTTP` of the mux
that `New` builds. -/
def HealthChecker.ServeHTTP {W : Type} (h : HealthChecker W) (w : ResponseWriter)
    (r : Request) (world : W) : ServeResult W :=
  if r.RequestURI = utf8 "*" then
    let w1 := if r.ProtoMajor > 1 ∨ (r.ProtoMajor = 1 ∧ r.ProtoMinor ≥ 1) then
      w.SetHeader "Connection" "close" else w
    { w := w1.WriteHeader StatusBadRequest, log := [], world := world }
  else
    (h.Server.Handler.Handler r).1.ServeHTTP h w r world

/-! ## Probes for the examples -/

/-- A probe whose check leaves the world alone and returns `err`. -/
def constProbe {W : Type} (err : GoError) : HealthCheckable W :=
  { HealthZ := fun world => (err, world) }

/-- The probe `Happy` of the tests. -/
def Happy : HealthCheckable Unit := constProbe none

/-- The probe `Unhappy` of the tests. -/
def Unhappy : HealthCheckable Unit := constProbe (some (utf8 "failed"))

/-- The configuration the tests start from, `Log` set, with the given providers. -/
def testConfig (providers : List (ProviderInfo Unit)) : Config Unit :=
  { BindPort := 80, BindAddr := utf8 "localhost", Providers := providers,
    Hostname := utf8 "tester", Log := some { name := "testLogger" }, ServerErrorLog := none }

/-- The environment of the examples: the lookup of the hostname gives `localhost`. -/
def testOS : OS := { hostname := (utf8 "localhost", none), lookups := 0 }

/-- The response that the server handler of the checker `New` builds for `config` gives to the
request; `none` when `New` fails. -/
def serve {W : Type} (config : Config W) (os : OS) (r : Request) (world : W) :
    Option (ServeResult W) :=
  match (New config os).result with
  | Except.ok h => some (h.ServeHTTP NewRecorder r world)
  | Except.error _ => none

/-! ## Notions the statements use -/

/-- The outcomes of the checks of one request: the probes are asked in registration order, each
in the world its predecessors left. -/
def outcomes {W : Type} : List (ProviderInfo W) → W → List GoError
  | [], _ => []
  | p :: ps, world => (p.Check.HealthZ world).1 :: outcomes ps (p.Check.HealthZ world).2

/-- The world after each probe's check has run once, in registration order. -/
def worldAfter {W : Type} : List (ProviderInfo W) → W → W
  | [], world => world
  | p :: ps, world => worldAfter ps (p.Check.HealthZ world).2

/-- The entry a probe with outcome `o` stands for: none when it passes, and when it fails its
type, the text of its error and its description. -/
def entryOf {W : Type} (po : ProviderInfo W × GoError) : Option Error :=
  po.2.map (fun msg => { Type_ := po.1.Type_, ErrMsg := msg, Description := po.1.Description })

/-- The entries of the failing probes, in registration order. -/
def failing {W : Type} (ps : List (ProviderInfo W)) (world : W) : List Error :=
  (List.zip ps (outcomes ps world)).filterMap entryOf

/-- The probe `p` with a call record: its check does what that of `p` does and adds `i` to
the list of the checks invoked so far. -/
def recording {W : Type} (i : Nat) (p : ProviderInfo W) : ProviderInfo (W × List Nat) :=
  { Check := { HealthZ := fun st =>
      ((p.Check.HealthZ st.1).1, ((p.Check.HealthZ st.1).2, st.2 ++ [i])) },
    Description := p.Description,
    Type_ := p.Type_ }

/-- The probes `ps`, the one registered at position `i` (counted from `start`) recording `i`. -/
def recordingAll {W : Type} : Nat → List (ProviderInfo W) → List (ProviderInfo (W × List Nat))
  | _, [] => []
  | start, p :: ps => recording start p :: recordingAll (start + 1) ps

/-- The JSON string literal for `s`, as `appendString` writes it. -/
def jsonString (s : GoString) : GoString := appendString [] s

/-- The text `s` between double quotes, as it stands. -/
def quoted (s : GoString) : GoString := [0x22] ++ s ++ [0x22]

/-- The text of one error object with the keys `Type`, `ErrMsg`, `Description` in this order,
the three texts rendered by `q`. -/
def errorText (q : GoString → GoString) (e : Error) : GoString :=
  utf8 "\x7b\"Type\":" ++ q e.Type_ ++ utf8 ",\"ErrMsg\":" ++ q e.ErrMsg ++
    utf8 ",\"Description\":" ++ q e.Description ++ utf8 "\x7d"

/-- The text of a body without errors: the keys `Errors` and `Hostname` in this order, the
hostname rendered by `q`, and a newline. -/
def passingText (q : GoString → GoString) (hostname : GoString) : GoString :=
  utf8 "\x7b\"Errors\":null,\"Hostname\":" ++ q hostname ++ utf8 "\x7d\n"

/-- The text of a body with the errors `es`: the keys `Errors` and `Hostname` in this order,
the error objects between brackets with commas between them, and a newline. -/
def failingText (q : GoString → GoString) (es : List Error) (hostname : GoString) : GoString :=
  utf8 "\x7b\"Errors\":[" ++ List.intercalate (utf8 ",") (es.map (errorText q)) ++
    utf8 "],\"Hostname\":" ++ q hostname ++ utf8 "\x7d\n"

/-- The text a monitor looks for in the body. -/
def errorsNull : GoString := utf8 "\"Errors\":null"

/-- One step of a search for the four bytes `s":n` in a text: `q` of them are matched by the
end of the text read so far, and 4 says they have been found. -/
def scanStep (q b : Nat) : Nat :=
  if q = 4 then 4
  else if q = 1 ∧ b = 0x22 then 2
  else if q = 2 ∧ b = 0x3A then 3
  else if q = 3 ∧ b = 0x6E then 4
  else if b = 0x73 then 1
  else 0

/-- The search for `s":n` through the text `l`, started in state `q`. -/
def scan (q : Nat) (l : GoString) : Nat := l.foldl scanStep q

/-- A text is calm when a search that is before it in state 0 (nothing matched) or 2 (`s"`
matched) is in state 0 or 2 again after it. -/
def Calm (l : GoString) : Prop :=
  ∀ q, q = 0 ∨ q = 2 → scan q l = 0 ∨ scan q l = 2

/-- The mux after the two registrations of `New`. -/
def healthzMux : ServeMux :=
  (NewServeMux.Handle (utf8 "/healthz") Handler.HandleHealthz).Handle (utf8 "/liveness")
    Handler.HandleLiveness

/-! ## Configurations for the examples -/

/-- The request `GET path` of the tests. -/
def getRequest (path : String) : Request := NewRequest (utf8 "GET") (utf8 path)

/-- The providers of `TestHappy`. -/
def happyProviders : List (ProviderInfo Unit) :=
  [{ Check := Happy, Description := [], Type_ := [] }]

/-- The providers of `TestUnhappy`. -/
def unhappyProviders : List (ProviderInfo Unit) :=
  [{ Check := Unhappy, Description := utf8 "Ensure the database connection is up",
     Type_ := utf8 "DBConn" }]

/-- The providers of `TestMultipleOneUnhappy`. -/
def multipleProviders : List (ProviderInfo Unit) :=
  [{ Check := Unhappy, Description := utf8 "Ensure the database connection is up",
     Type_ := utf8 "DBConn" },
   { Check := Happy, Description := utf8 "Ensure we can reach Foo", Type_ := utf8 "Foo" },
   { Check := Happy, Description := utf8 "Watch a key metric for failure",
     Type_ := utf8 "Metric" }]

/-- The checker `New` returns for the configuration of the tests with the given providers. -/
def testChecker (providers : List (ProviderInfo Unit)) : HealthChecker Unit :=
  newServer (testConfig providers) { name := "testLogger" } (utf8 "tester")

/-- A configuration without probes whose hostname override holds an ampersand. -/
def ampersandConfig : Config Unit :=
  { BindPort := 80, BindAddr := utf8 "localhost", Providers := [],
    Hostname := utf8 "R&D", Log := some { name := "testLogger" }, ServerErrorLog := none }

/-- A probe that fails with an error text that holds double quotes. -/
def quoteProviders : List (ProviderInfo Unit) :=
  [{ Check := constProbe (some (utf8 "parsing \"x\": invalid syntax")),
     Description := utf8 "Ensure the port is a number", Type_ := utf8 "Config" }]

/-- The configuration of the tests without a logger. -/
def noLogConfig : Config Unit :=
  { BindPort := 80, BindAddr := utf8 "localhost", Providers := multipleProviders,
    Hostname := utf8 "tester", Log := none, ServerErrorLog := none }

/-- Whether all bytes of a text are in `htmlSafeSet`. -/
def allSafe (s : GoString) : Prop := ∀ b ∈ s, htmlSafeSet b = true

set_option maxRecDepth 100000

/-! ## The loops end before their fuel does -/

/-- The loop of `path.Clean` has read its whole input when the fuel is at least the length of
the input: more fuel changes nothing. -/
theorem cleanLoop_fuel (rooted : Bool) (f1 : Nat) :
    ∀ (f2 : Nat) (rest out : GoString) (dotdot : Nat), rest.length ≤ f1 → rest.length ≤ f2 →
      cleanLoop rooted f1 rest out dotdot = cleanLoop rooted f2 rest out dotdot := by
  induction f1 with
  | zero =>
    intro f2 rest out dotdot h1 _
    have : rest = [] := List.length_eq_zero.mp (by omega)
    subst this
    cases f2 <;> simp [cleanLoop]
  | succ f1 ih =>
    intro f2 rest out dotdot h1 h2
    cases rest with
    | nil => cases f2 <;> simp [cleanLoop]
    | cons c rest =>
      cases f2 with
      | zero => simp at h2
      | succ f2 =>
        simp only [List.length_cons] at h1 h2
        have ht : rest.tail.length ≤ rest.length := by simp
        simp only [cleanLoop]
        split
        · exact ih _ _ _ _ (by omega) (by omega)
        · next hc =>
          split
          · exact ih _ _ _ _ (by omega) (by omega)
          · split
            · split
              · exact ih _ _ _ _ (by omega) (by omega)
              · split
                · exact ih _ _ _ _ (by omega) (by omega)
                · exact ih _ _ _ _ (by omega) (by omega)
            · have hd : ((c :: rest).dropWhile (fun b => b != 0x2F)).length ≤ rest.length := by
                have hp : (c != 0x2F) = true := by simpa using hc
                rw [List.dropWhile_cons, if_pos hp]
                exact (List.dropWhile_sublist _).length_le
              exact ih _ _ _ _ (by omega) (by omega)

/-! ## The probe loop of `HandleHealthz` -/

theorem foldl_append_elems (s : Slice Error) (l : List Error) :
    (l.foldl Slice.append s).elems = s.elems ++ l := by
  induction l generalizing s with
  | nil => simp
  | cons e es ih =>
    rw [List.foldl_cons, ih]
    cases s <;> simp [Slice.append, Slice.elems]

theorem foldl_append_none (l : List Error) :
    l.foldl Slice.append (none : Slice Error) = if l = [] then none else some l := by
  cases l with
  | nil => simp
  | cons e es =>
    have h := foldl_append_elems (Slice.append none e) es
    simp only [List.foldl_cons]
    generalize hx : List.foldl Slice.append (Slice.append none e) es = x at h
    have h2 : ∀ (t : Slice Error) (k : List Error), t = some k → 
        ∃ k', List.foldl Slice.append t es = some k' := by
      intro t k ht
      subst ht
      clear h hx
      induction es generalizing k with
      | nil => exact ⟨k, rfl⟩
      | cons a as ih => exact ih (k ++ [a])
    obtain ⟨k', hk'⟩ := h2 (Slice.append none e) [e] rfl
    rw [hx] at hk'
    subst hk'
    simp [Slice.elems, Slice.append] at h
    simp [h]

theorem checkProviders_eq {W : Type} (ps : List (ProviderInfo W)) (resp : HTTPResponse)
    (world : W) :
    checkProviders ps resp world =
      ({ Errors := (failing ps world).foldl Slice.append resp.Errors,
         Hostname := resp.Hostname }, worldAfter ps world) := by
  induction ps generalizing resp world with
  | nil => simp [checkProviders, failing, outcomes, worldAfter]
  | cons p ps ih =>
    simp only [checkProviders]
    cases hc : (p.Check.HealthZ world).1 with
    | none =>
      simp only [ih]
      simp [failing, outcomes, worldAfter, hc, entryOf]
    | some err =>
      simp only [ih]
      simp [failing, outcomes, worldAfter, hc, entryOf]


theorem handleHealthz_resp {W : Type} (h : HealthChecker W) (w : ResponseWriter) (r : Request)
    (world : W) :
    (h.HandleHealthz w r world).resp =
      { Errors := if failing h.providers world = [] then none
          else some (failing h.providers world),
        Hostname := h.hostname } := by
  simp [HealthChecker.HandleHealthz, checkProviders_eq, foldl_append_none]

theorem handleHealthz_world {W : Type} (h : HealthChecker W) (w : ResponseWriter) (r : Request)
    (world : W) :
    (h.HandleHealthz w r world).world = worldAfter h.providers world := by
  simp [HealthChecker.HandleHealthz, checkProviders_eq]

theorem handleHealthz_w {W : Type} (h : HealthChecker W) (r : Request) (world : W) :
    (h.HandleHealthz NewRecorder r world).w =
      { Header := [("Content-Type", "application/json")], wroteHeader := true, Code := 200,
        Body := encodeHTTPResponse [] (h.HandleHealthz NewRecorder r world).resp ++ utf8 "\n" } := by
  simp [HealthChecker.HandleHealthz, Encode, ResponseWriter.Write, ResponseWriter.WriteHeader,
    ResponseWriter.SetHeader, NewRecorder, StatusOK]

theorem failing_length {W : Type} (ps : List (ProviderInfo W)) (world : W) :
    (failing ps world).length = ((outcomes ps world).filter Option.isSome).length := by
  unfold failing
  induction ps generalizing world with
  | nil => simp [outcomes]
  | cons p ps ih =>
    simp only [outcomes, List.zip_cons_cons]
    cases hc : (p.Check.HealthZ world).1 with
    | none => simp [List.filterMap_cons, entryOf, ih]
    | some e => simp [List.filterMap_cons, entryOf, ih]

theorem outcomes_length {W : Type} (ps : List (ProviderInfo W)) (world : W) :
    (outcomes ps world).length = ps.length := by
  induction ps generalizing world with
  | nil => simp [outcomes]
  | cons p ps ih => simp [outcomes, ih]

theorem failing_eq_nil {W : Type} (ps : List (ProviderInfo W)) (world : W) :
    failing ps world = [] ↔ ∀ o ∈ outcomes ps world, o = none := by
  unfold failing
  induction ps generalizing world with
  | nil => simp [outcomes]
  | cons p ps ih =>
    simp only [outcomes, List.zip_cons_cons]
    cases hc : (p.Check.HealthZ world).1 with
    | none => simp [List.filterMap_cons, entryOf, ih]
    | some e => simp [List.filterMap_cons, entryOf]

/-- C1: the `Errors` list that `HandleHealthz` builds for one request holds exactly the entries
of the failing probes, in registration order: a probe whose check returned an error gives one
entry with its `Type`, its `Description` and the text of that error as `ErrMsg`, a probe whose
check returned nil gives none; so the list has as many entries as probes failed. -/
theorem errors_one_entry_per_failing_probe {W : Type} (h : HealthChecker W)
    (w : ResponseWriter) (r : Request) (world : W) :
    (h.HandleHealthz w r world).resp.Errors.elems =
        (List.zip h.providers (outcomes h.providers world)).filterMap entryOf ∧
      (h.HandleHealthz w r world).resp.Errors.len =
        ((outcomes h.providers world).filter Option.isSome).length := by
  rw [handleHealthz_resp, ← failing_length]
  constructor
  · show Slice.elems (if failing h.providers world = [] then none
        else some (failing h.providers world)) = failing h.providers world
    split
    · next hf => simp [Slice.elems, hf]
    · simp [Slice.elems]
  · show Slice.len (if failing h.providers world = [] then none
        else some (failing h.providers world)) = _
    split
    · next hf => simp [Slice.len, hf]
    · simp [Slice.len]

/-- C3: whatever probes are registered and whatever their checks return, `HandleHealthz` writes
the status line, and writes it with code 200. -/
theorem healthz_status_always_200 {W : Type} (h : HealthChecker W) (r : Request) (world : W) :
    (h.HandleHealthz NewRecorder r world).w.Code = 200 ∧
      (h.HandleHealthz NewRecorder r world).w.wroteHeader = true := by
  rw [handleHealthz_w]
  exact ⟨rfl, rfl⟩

theorem worldAfter_recordingAll {W : Type} (ps : List (ProviderInfo W)) (start : Nat)
    (world : W) (tr : List Nat) :
    worldAfter (recordingAll start ps) (world, tr) =
      (worldAfter ps world, tr ++ List.range' start ps.length) := by
  induction ps generalizing start world tr with
  | nil => simp [recordingAll, worldAfter]
  | cons p ps ih =>
    simp [recordingAll, worldAfter, recording, ih, List.range'_succ]

theorem outcomes_recordingAll {W : Type} (ps : List (ProviderInfo W)) (start : Nat)
    (world : W) (tr : List Nat) :
    outcomes (recordingAll start ps) (world, tr) = outcomes ps world := by
  induction ps generalizing start world tr with
  | nil => simp [recordingAll, outcomes]
  | cons p ps ih =>
    simp [recordingAll, outcomes, recording, ih]

/-- C10: one call of `HandleHealthz` invokes the check of every registered probe exactly once,
in registration order, whether earlier checks failed or not: when each probe records its
position on being invoked, the record after the call is `0, 1, ..., n-1`; and the world of the
probes after the call is the one that the checks, run once each in this order, leave. -/
theorem each_probe_invoked_once_in_order {W : Type} (ps : List (ProviderInfo W))
    (srv : Server) (hostname : GoString) (log : logger) (w : ResponseWriter) (r : Request)
    (world : W) :
    (HealthChecker.HandleHealthz
        { providers := recordingAll 0 ps, Server := srv, hostname := hostname, log := log }
        w r (world, [])).world.2 = List.range ps.length ∧
      (HealthChecker.HandleHealthz
        { providers := ps, Server := srv, hostname := hostname, log := log }
        w r world).world = worldAfter ps world := by
  rw [handleHealthz_world, handleHealthz_world, worldAfter_recordingAll]
  simp [List.range_eq_range']


/-! ## The rune decoder and the string encoder -/

theorem first_cases (b : Nat) :
    first b = as ∨ first b = xx ∨
      (0x80 ≤ b ∧ (first b = s1 ∨ first b = s2 ∨ first b = s3 ∨ first b = s4 ∨
        first b = s5 ∨ first b = s6 ∨ first b = s7)) := by
  unfold first
  split_ifs <;> simp <;> omega

theorem first_high (b : Nat) (hb : 0x80 ≤ b) : first b ≠ as := by
  unfold first
  split_ifs <;> simp [as, xx, s1, s2, s3, s4, s5, s6, s7]
  omega

/-- What the decoder reads off a first byte that starts a sequence of several bytes: the
width and the lower bound for the second byte. -/
theorem multi_info (x : Nat)
    (hx : x = s1 ∨ x = s2 ∨ x = s3 ∨ x = s4 ∨ x = s5 ∨ x = s6 ∨ x = s7) :
    ¬ (x ≥ as) ∧ 2 ≤ (x &&& 7) ∧ (x &&& 7) ≤ 4 ∧ 0x80 ≤ (acceptRanges (x >>> 4)).1 := by
  rcases hx with h | h | h | h | h | h | h <;> subst h <;> decide

theorem decode_shape (s : GoString) :
    ((DecodeRuneInString s).1 = RuneError ∧
        ((s = [] ∧ (DecodeRuneInString s).2 = 0) ∨ (DecodeRuneInString s).2 = 1)) ∨
      ((DecodeRuneInString s).2 = 1 ∧ ∃ b t, s = b :: t ∧ first b = as) ∨
      (2 ≤ (DecodeRuneInString s).2 ∧ (DecodeRuneInString s).2 ≤ 4 ∧
        (DecodeRuneInString s).2 ≤ s.length ∧
        ∀ x ∈ s.take (DecodeRuneInString s).2, 0x80 ≤ x) := by
  cases s with
  | nil => left; simp [DecodeRuneInString]
  | cons b0 t0 =>
    rcases first_cases b0 with h | h | ⟨hb0, h⟩
    · right; left
      simp [DecodeRuneInString, h, as, xx]
    · left
      simp [DecodeRuneInString, h, as, xx]
    · obtain ⟨h1, h2, h3, h4⟩ := multi_info _ h
      unfold DecodeRuneInString
      simp only []
      generalize first b0 = x at *
      rw [if_neg h1]
      simp only [locb, hicb] at *
      generalize hsz : x &&& 7 = sz at *
      generalize hac : acceptRanges (x >>> 4) = ac at *
      by_cases c1 : (b0 :: t0).length < sz
      · left; rw [if_pos c1]; simp
      · rw [if_neg c1]
        cases t0 with
        | nil => left; simp
        | cons b1 t1 =>
          simp only []
          by_cases c2 : b1 < ac.1 ∨ ac.2 < b1
          · left; rw [if_pos c2]; simp
          · rw [if_neg c2]
            by_cases c3 : sz ≤ 2
            · right; right
              rw [if_pos c3]
              simp
              omega
            · rw [if_neg c3]
              cases t1 with
              | nil => left; simp
              | cons b2 t2 =>
                simp only []
                by_cases c4 : b2 < 128 ∨ 191 < b2
                · left; rw [if_pos c4]; simp
                · rw [if_neg c4]
                  by_cases c5 : sz ≤ 3
                  · right; right
                    rw [if_pos c5]
                    simp
                    omega
                  · rw [if_neg c5]
                    cases t2 with
                    | nil => left; simp
                    | cons b3 t3 =>
                      simp only []
                      by_cases c6 : b3 < 128 ∨ 191 < b3
                      · left; rw [if_pos c6]; simp
                      · rw [if_neg c6]
                        right; right
                        simp
                        omega


theorem decode_size_pos (s : GoString) (hs : s ≠ []) : 1 ≤ (DecodeRuneInString s).2 := by
  rcases decode_shape s with ⟨_, h | h⟩ | ⟨h, _⟩ | ⟨h, _⟩
  · exact absurd h.1 hs
  · omega
  · omega
  · omega

theorem htmlSafeSet_lt (b : Nat) (h : htmlSafeSet b = true) : b < RuneSelf ∧ b ≠ 0x22 := by
  simp [htmlSafeSet, RuneSelf] at *
  omega

/-- The loop of `appendString` has read its whole input when the fuel is at least the length
of the input: more fuel changes nothing. -/
theorem appendStringLoop_fuel (f1 : Nat) :
    ∀ (f2 : Nat) (s : GoString), s.length ≤ f1 → s.length ≤ f2 →
      appendStringLoop f1 s = appendStringLoop f2 s := by
  induction f1 with
  | zero =>
    intro f2 s h1 _
    have : s = [] := List.length_eq_zero.mp (by omega)
    subst this
    cases f2 <;> simp [appendStringLoop]
  | succ f1 ih =>
    intro f2 s h1 h2
    cases s with
    | nil => cases f2 <;> simp [appendStringLoop]
    | cons b rest =>
      cases f2 with
      | zero => simp at h2
      | succ f2 =>
        simp only [List.length_cons] at h1 h2
        have hpos := decode_size_pos (List.take UTFMax (b :: rest)) (by simp [UTFMax])
        have hd : ((b :: rest).drop (DecodeRuneInString (List.take UTFMax (b :: rest))).2).length
            ≤ rest.length := by
          simp only [List.length_drop, List.length_cons]
          omega
        simp only [appendStringLoop]
        rw [ih f2 rest (by omega) (by omega),
          ih f2 _ (by omega) (by omega)]

theorem appendStringLoop_safe (fuel : Nat) :
    ∀ s : GoString, s.length ≤ fuel → (∀ b ∈ s, htmlSafeSet b = true) →
      appendStringLoop fuel s = s := by
  induction fuel with
  | zero =>
    intro s h1 _
    have : s = [] := List.length_eq_zero.mp (by omega)
    subst this
    simp [appendStringLoop]
  | succ fuel ih =>
    intro s h1 hs
    cases s with
    | nil => simp [appendStringLoop]
    | cons b rest =>
      have hb := hs b (by simp)
      have hlt := (htmlSafeSet_lt b hb).1
      simp only [List.length_cons] at h1
      simp only [appendStringLoop, if_pos hlt, hb, if_true]
      rw [ih rest (by omega) (fun x hx => hs x (by simp [hx]))]

theorem jsonString_safe (s : GoString) (hs : ∀ b ∈ s, htmlSafeSet b = true) :
    jsonString s = quoted s := by
  simp [jsonString, quoted, appendString, appendStringLoop_safe s.length s (le_refl _) hs]

theorem appendString_eq (dst s : GoString) : appendString dst s = dst ++ jsonString s := by
  simp [jsonString, appendString]


/-! ## The shape of the body -/

theorem encodeError_eq (dst : GoString) (e : Error) :
    encodeError dst e = dst ++ errorText jsonString e := by
  simp [encodeError, errorText, appendString_eq, List.append_assoc]

theorem encodeErrorElems_false (es : List Error) (dst : GoString) :
    encodeErrorElems dst false es =
      dst ++ es.flatMap (fun e => utf8 "," ++ errorText jsonString e) := by
  induction es generalizing dst with
  | nil => simp [encodeErrorElems]
  | cons e es ih =>
    simp [encodeErrorElems, ih, encodeError_eq, List.append_assoc]

theorem intercalate_cons (sep a : GoString) (l : List GoString) :
    List.intercalate sep (a :: l) = a ++ l.flatMap (fun x => sep ++ x) := by
  induction l generalizing a with
  | nil => simp [List.intercalate]
  | cons b l ih =>
    have h := ih b
    simp only [List.intercalate, List.intersperse_cons_cons, List.flatten_cons,
      List.flatMap_cons] at *
    rw [h]
    simp [List.append_assoc]

theorem encodeErrorElems_true (es : List Error) (dst : GoString) :
    encodeErrorElems dst true es =
      dst ++ List.intercalate (utf8 ",") (es.map (errorText jsonString)) := by
  cases es with
  | nil => simp [encodeErrorElems, List.intercalate]
  | cons e es =>
    rw [List.map_cons, intercalate_cons]
    simp [encodeErrorElems, encodeErrorElems_false, encodeError_eq, List.append_assoc,
      List.flatMap_map]

theorem encode_passing (hostname : GoString) :
    encodeHTTPResponse [] { Errors := none, Hostname := hostname } ++ utf8 "\n" =
      passingText jsonString hostname := by
  have e1 : utf8 "\x7b\"Errors\":" ++ utf8 "null" ++ utf8 ",\"Hostname\":" =
    utf8 "\x7b\"Errors\":null,\"Hostname\":" := by decide
  have e2 : utf8 "\x7d" ++ utf8 "\n" = utf8 "\x7d\n" := by decide
  simp only [encodeHTTPResponse, encodeErrors, passingText, appendString_eq, List.nil_append,
    List.append_assoc, e2]
  rw [← List.append_assoc, ← List.append_assoc, e1]

theorem encode_failing (es : List Error) (hostname : GoString) :
    encodeHTTPResponse [] { Errors := some es, Hostname := hostname } ++ utf8 "\n" =
      failingText jsonString es hostname := by
  have e1 : utf8 "\x7b\"Errors\":" ++ utf8 "[" = utf8 "\x7b\"Errors\":[" := by decide
  have e2 : utf8 "\x7d" ++ utf8 "\n" = utf8 "\x7d\n" := by decide
  have e3 : utf8 "]" ++ utf8 ",\"Hostname\":" = utf8 "],\"Hostname\":" := by decide
  simp only [encodeHTTPResponse, encodeErrors, failingText, appendString_eq, List.nil_append,
    List.append_assoc, e2, encodeErrorElems_true]
  rw [← List.append_assoc, e1]
  congr 2

theorem handleHealthz_body {W : Type} (h : HealthChecker W) (r : Request) (world : W) :
    (h.HandleHealthz NewRecorder r world).w.Body =
      if failing h.providers world = [] then passingText jsonString h.hostname
      else failingText jsonString (failing h.providers world) h.hostname := by
  rw [handleHealthz_w, handleHealthz_resp]
  split
  · exact encode_passing _
  · exact encode_failing _ _


/-! ## The text `"Errors":null` in the body -/

theorem scan_append (q : Nat) (a b : GoString) : scan q (a ++ b) = scan (scan q a) b := by
  simp [scan, List.foldl_append]

theorem scan_found (l : GoString) : scan 4 l = 4 := by
  induction l with
  | nil => rfl
  | cons b l ih =>
    have : scan 4 (b :: l) = scan (scanStep 4 b) l := rfl
    rw [this]
    simpa [scanStep] using ih

theorem scan_pattern (q : Nat) : scan q (utf8 "s\":n") = 4 := by
  have e : utf8 "s\":n" = [0x73, 0x22, 0x3A, 0x6E] := by decide
  rw [e]
  simp only [scan, List.foldl_cons, List.foldl_nil]
  by_cases h4 : q = 4
  · subst h4; decide
  · have h1 : scanStep q 0x73 = 1 := by simp [scanStep, h4]
    rw [h1]
    decide

theorem scan_of_occurrence (l : GoString) (h : errorsNull <:+: l) : scan 0 l = 4 := by
  have hp : utf8 "s\":n" <:+: errorsNull := ⟨utf8 "\"Error", utf8 "ull", by decide⟩
  obtain ⟨a, c, hac⟩ := hp.trans h
  rw [← hac, scan_append, scan_append, scan_pattern, scan_found]

theorem scanStep_low (q b : Nat) (hq : q = 0 ∨ q = 1) (hb : q = 0 ∨ b ≠ 0x22) :
    scanStep q b = 0 ∨ scanStep q b = 1 := by
  unfold scanStep
  rcases hq with rfl | rfl
  · by_cases h : b = 0x73 <;> simp [h]
  · have hb' : b ≠ 0x22 := by
      rcases hb with h | h
      · omega
      · exact h
    by_cases h : b = 0x73 <;> simp [h, hb']

theorem scan_low (l : GoString) (q : Nat) (hq : q = 0 ∨ q = 1) (hl : ∀ x ∈ l, x ≠ 0x22) :
    scan q l = 0 ∨ scan q l = 1 := by
  induction l generalizing q with
  | nil => exact hq
  | cons b l ih =>
    have : scan q (b :: l) = scan (scanStep q b) l := rfl
    rw [this]
    exact ih _ (scanStep_low q b hq (Or.inr (hl b (by simp))))
      (fun x hx => hl x (by simp [hx]))

theorem hex_ne_quote (n : Nat) : hex n ≠ 0x22 := by
  unfold hex
  by_cases h : n < 16
  · interval_cases n <;> decide
  · rw [List.getD_eq_default]
    · decide
    · have : (utf8 "0123456789abcdef").length = 16 := by decide
      omega

theorem scan_escapeByte (b q : Nat) (hq : q = 0 ∨ q = 1) :
    scan q (escapeByte b) = 0 ∨ scan q (escapeByte b) = 1 := by
  unfold escapeByte
  split
  · have e : scan q [0x5C, b] = scanStep (scanStep q 0x5C) b := rfl
    rw [e]
    have h0 : scanStep q 0x5C = 0 := by
      rcases hq with rfl | rfl <;> decide
    rw [h0]
    exact scanStep_low 0 b (Or.inl rfl) (Or.inl rfl)
  · apply scan_low _ _ hq
    split_ifs
    · decide
    · decide
    · decide
    · decide
    · decide
    · intro x hx
      rw [List.mem_append] at hx
      rcases hx with hx | hx
      · revert x; decide
      · simp only [List.mem_cons, List.mem_singleton, List.not_mem_nil, or_false] at hx
        rcases hx with rfl | rfl <;> exact hex_ne_quote _

theorem scan_appendStringLoop (fuel : Nat) :
    ∀ (s : GoString) (q : Nat), q = 0 ∨ q = 1 →
      scan q (appendStringLoop fuel s) = 0 ∨ scan q (appendStringLoop fuel s) = 1 := by
  induction fuel with
  | zero => intro s q hq; simpa [appendStringLoop, scan] using hq
  | succ fuel ih =>
    intro s q hq
    cases s with
    | nil => simpa [appendStringLoop, scan] using hq
    | cons b rest =>
      simp only [appendStringLoop]
      split
      · split
        · next hlt hsafe =>
          have e : scan q (b :: appendStringLoop fuel rest) =
            scan (scanStep q b) (appendStringLoop fuel rest) := rfl
          rw [e]
          exact ih _ _ (scanStep_low q b hq (Or.inr (htmlSafeSet_lt b hsafe).2))
        · rw [scan_append]
          exact ih _ _ (scan_escapeByte b q hq)
      · next hge =>
        have hb : 0x80 ≤ b := by simp [RuneSelf] at hge; omega
        split
        · rw [scan_append]
          exact ih _ _ (scan_low _ _ hq (by decide))
        · next hne =>
          split
          · rw [scan_append]
            refine ih _ _ (scan_low _ _ hq ?_)
            intro x hx
            rw [List.mem_append] at hx
            rcases hx with hx | hx
            · revert x; decide
            · simp only [List.mem_singleton] at hx
              subst hx
              exact hex_ne_quote _
          · rw [scan_append]
            refine ih _ _ (scan_low _ _ hq ?_)
            intro x hx
            rcases decode_shape (List.take UTFMax (b :: rest)) with ⟨h1, h2 | h2⟩ | ⟨_, c, t, hct, hc⟩ | ⟨h2, h4, hlen, hall⟩
            · simp [UTFMax] at h2
            · exact absurd ⟨h1, h2⟩ hne
            · simp only [UTFMax, List.take_succ_cons, List.cons.injEq] at hct
              rw [← hct.1] at hc
              exact absurd hc (first_high b hb)
            · have hx' : x ∈ List.take (DecodeRuneInString (List.take UTFMax (b :: rest))).2
                  (List.take UTFMax (b :: rest)) := by
                rw [List.take_take, Nat.min_eq_left (by simpa [UTFMax] using h4)]
                exact hx
              have := hall x hx'
              omega


theorem Calm.append {a b : GoString} (ha : Calm a) (hb : Calm b) : Calm (a ++ b) := by
  intro q hq
  rw [scan_append]
  exact hb _ (ha q hq)

theorem calm_nil : Calm [] := fun _ hq => hq

theorem calm_jsonString (s : GoString) : Calm (jsonString s) := by
  intro q hq
  have e : jsonString s = [0x22] ++ (appendStringLoop s.length s ++ [0x22]) := by
    simp [jsonString, appendString]
  rw [e, scan_append, scan_append]
  have h0 : scan q [0x22] = 0 := by
    rcases hq with rfl | rfl <;> decide
  rw [h0]
  rcases scan_appendStringLoop s.length s 0 (Or.inl rfl) with h | h <;> rw [h]
  · left; decide
  · right; decide

theorem calm_errorText (e : Error) : Calm (errorText jsonString e) := by
  have c1 : Calm (utf8 "\x7b\"Type\":") := by
    intro q hq; rcases hq with rfl | rfl <;> decide
  have c2 : Calm (utf8 ",\"ErrMsg\":") := by
    intro q hq; rcases hq with rfl | rfl <;> decide
  have c3 : Calm (utf8 ",\"Description\":") := by
    intro q hq; rcases hq with rfl | rfl <;> decide
  have c4 : Calm (utf8 "\x7d") := by
    intro q hq; rcases hq with rfl | rfl <;> decide
  unfold errorText
  exact (((((c1.append (calm_jsonString _)).append c2).append (calm_jsonString _)).append
    c3).append (calm_jsonString _)).append c4

theorem calm_flatMap (es : List Error) :
    Calm (es.flatMap (fun e => utf8 "," ++ errorText jsonString e)) := by
  have c1 : Calm (utf8 ",") := by
    intro q hq; rcases hq with rfl | rfl <;> decide
  induction es with
  | nil => exact calm_nil
  | cons e es ih =>
    rw [List.flatMap_cons]
    exact (c1.append (calm_errorText e)).append ih

theorem calm_intercalate (es : List Error) :
    Calm (List.intercalate (utf8 ",") (es.map (errorText jsonString))) := by
  cases es with
  | nil => exact calm_nil
  | cons e es =>
    rw [List.map_cons, intercalate_cons, List.flatMap_map]
    exact (calm_errorText e).append (calm_flatMap es)

theorem calm_failingText (es : List Error) (hostname : GoString) :
    Calm (failingText jsonString es hostname) := by
  have c1 : Calm (utf8 "\x7b\"Errors\":[") := by
    intro q hq; rcases hq with rfl | rfl <;> decide
  have c2 : Calm (utf8 "],\"Hostname\":") := by
    intro q hq; rcases hq with rfl | rfl <;> decide
  have c3 : Calm (utf8 "\x7d\n") := by
    intro q hq; rcases hq with rfl | rfl <;> decide
  unfold failingText
  exact (((c1.append (calm_intercalate es)).append c2).append (calm_jsonString _)).append c3

theorem failingText_no_errorsNull (es : List Error) (hostname : GoString) :
    ¬ errorsNull <:+: failingText jsonString es hostname := by
  intro h
  have h4 := scan_of_occurrence _ h
  rcases calm_failingText es hostname 0 (Or.inl rfl) with h0 | h0 <;> omega

theorem passingText_errorsNull (q : GoString → GoString) (hostname : GoString) :
    errorsNull <:+: passingText q hostname := by
  refine ⟨utf8 "\x7b", utf8 ",\"Hostname\":" ++ q hostname ++ utf8 "\x7d\n", ?_⟩
  have e : utf8 "\x7b\"Errors\":null,\"Hostname\":" =
    utf8 "\x7b" ++ errorsNull ++ utf8 ",\"Hostname\":" := by decide
  simp only [passingText, e, List.append_assoc]

/-- C4: for all probes, outcomes, hostnames, types, descriptions and error texts, the body of
the `/healthz` response contains the text `"Errors":null` if and only if no registered probe
failed. -/
theorem errors_null_iff_no_probe_failed {W : Type} (h : HealthChecker W) (r : Request)
    (world : W) :
    utf8 "\"Errors\":null" <:+: (h.HandleHealthz NewRecorder r world).w.Body ↔
      ∀ o ∈ outcomes h.providers world, o = none := by
  rw [handleHealthz_body, ← failing_eq_nil]
  constructor
  · intro hin
    by_contra hne
    rw [if_neg hne] at hin
    exact failingText_no_errorsNull _ _ hin
  · intro hnil
    rw [if_pos hnil]
    exact passingText_errorsNull _ _


/-! ## The checker and the mux that `New` builds -/

theorem newServer_mux {W : Type} (config : Config W) (log : logger) (hostname : GoString) :
    (newServer config log hostname).Server.Handler =
healthzMux := rfl

theorem New_ok {W : Type} (config : Config W) (os : OS) (h : HealthChecker W)
    (hnew : (New config os).result = Except.ok h) :
    ∃ log hostname, config.Log = some log ∧ h = newServer config log hostname ∧
      (config.Hostname ≠ [] → hostname = config.Hostname ∧ (New config os).os = os) := by
  unfold New at hnew ⊢
  cases hl : config.Log with
  | none => simp [hl] at hnew
  | some log =>
    simp only [hl] at hnew ⊢
    by_cases hh : config.Hostname = []
    · simp only [hh, if_true] at hnew ⊢
      cases he : (osHostname os).1.2 with
      | none =>
        simp only [he] at hnew
        injection hnew with hnew
        exact ⟨log, _, rfl, hnew.symm, fun c => absurd rfl c⟩
      | some err => simp [he] at hnew
    · simp only [hh, if_false] at hnew ⊢
      injection hnew with hnew
      exact ⟨log, _, rfl, hnew.symm, fun _ => ⟨rfl, trivial⟩⟩

theorem New_ok_mux {W : Type} (config : Config W) (os : OS) (h : HealthChecker W)
    (hnew : (New config os).result = Except.ok h) :
    h.Server.Handler = healthzMux := by
  obtain ⟨log, hostname, _, rfl, _⟩ := New_ok config os h hnew
  exact newServer_mux _ _ _


theorem healthzMux_eq :
    healthzMux =
      { m := [{ h := Handler.HandleHealthz, pattern := utf8 "/healthz" },
              { h := Handler.HandleLiveness, pattern := utf8 "/liveness" }],
        es := [], hosts := false } := by
  decide

theorem lookup_eq (path : GoString) :
    healthzMux.lookup path =
      if path = utf8 "/healthz" then
        some { h := Handler.HandleHealthz, pattern := utf8 "/healthz" }
      else if path = utf8 "/liveness" then
        some { h := Handler.HandleLiveness, pattern := utf8 "/liveness" }
      else none := by
  rw [healthzMux_eq]
  simp only [ServeMux.lookup, List.find?]
  by_cases h1 : path = utf8 "/healthz"
  · subst h1; simp
  · by_cases h2 : path = utf8 "/liveness"
    · subst h2
      rw [if_neg h1, if_pos rfl]
      have : (utf8 "/healthz" == utf8 "/liveness") = false := by decide
      simp [this]
    · rw [if_neg h1, if_neg h2]
      have e1 : (utf8 "/healthz" == path) = false := by
        simpa using fun h => h1 h.symm
      have e2 : (utf8 "/liveness" == path) = false := by
        simpa using fun h => h2 h.symm
      simp [e1, e2]

theorem append_slash_ne (c : GoString) :
    c ++ [0x2F] ≠ utf8 "/healthz" ∧ c ++ [0x2F] ≠ utf8 "/liveness" := by
  have e1 : List.getLast? (utf8 "/healthz") = some 0x7A := by decide
  have e2 : List.getLast? (utf8 "/liveness") = some 0x73 := by decide
  constructor <;> intro h <;> have h' := congrArg List.getLast? h
  · rw [e1] at h'; simp at h'
  · rw [e2] at h'; simp at h'

theorem lookup_slash (c : GoString) : healthzMux.lookup (c ++ [0x2F]) = none := by
  rw [lookup_eq, if_neg (append_slash_ne c).1, if_neg (append_slash_ne c).2]

theorem shouldRedirect_false (host path : GoString) :
    healthzMux.shouldRedirectRLocked host path = false := by
  simp [ServeMux.shouldRedirectRLocked, lookup_slash]

theorem handler_eq (host path : GoString) :
    healthzMux.handler host path =
      if path = utf8 "/healthz" then (Handler.HandleHealthz, utf8 "/healthz")
      else if path = utf8 "/liveness" then (Handler.HandleLiveness, utf8 "/liveness")
      else (Handler.NotFound, []) := by
  have hh : healthzMux.hosts = false := by decide
  have he : healthzMux.es = [] := by decide
  simp only [ServeMux.handler, ServeMux.matchPath, hh, he, lookup_eq, List.find?,
    Bool.false_eq_true, if_false]
  split_ifs <;> simp

theorem mux_Handler_eq (r : Request) :
    (healthzMux.Handler r).1 =
      if r.Method ≠ utf8 "CONNECT" ∧ cleanPath r.Path ≠ r.Path then
        Handler.Redirect (cleanPath r.Path) StatusMovedPermanently
      else if r.Path = utf8 "/healthz" then Handler.HandleHealthz
      else if r.Path = utf8 "/liveness" then Handler.HandleLiveness
      else Handler.NotFound := by
  simp only [ServeMux.Handler, shouldRedirect_false, handler_eq]
  split_ifs <;> simp_all


theorem serveHTTP_eq {W : Type} (h : HealthChecker W) (hm : h.Server.Handler = healthzMux)
    (w : ResponseWriter) (r : Request) (world : W) (huri : r.RequestURI ≠ utf8 "*") :
    h.ServeHTTP w r world = (healthzMux.Handler r).1.ServeHTTP h w r world := by
  simp [HealthChecker.ServeHTTP, huri, hm]

theorem serveHTTP_healthz {W : Type} (h : HealthChecker W) (hm : h.Server.Handler = healthzMux)
    (w : ResponseWriter) (r : Request) (world : W) (huri : r.RequestURI ≠ utf8 "*")
    (hpath : r.Path = utf8 "/healthz") :
    h.ServeHTTP w r world =
      { w := (h.HandleHealthz w r world).w, log := (h.HandleHealthz w r world).log,
        world := (h.HandleHealthz w r world).world } := by
  have hc : cleanPath (utf8 "/healthz") = utf8 "/healthz" := by decide
  rw [serveHTTP_eq h hm w r world huri, mux_Handler_eq, hpath, hc]
  simp [Handler.ServeHTTP]

theorem serveHTTP_liveness {W : Type} (h : HealthChecker W) (hm : h.Server.Handler = healthzMux)
    (w : ResponseWriter) (r : Request) (world : W) (huri : r.RequestURI ≠ utf8 "*")
    (hpath : r.Path = utf8 "/liveness") :
    h.ServeHTTP w r world = h.HandleLiveness w r world := by
  have hc : cleanPath (utf8 "/liveness") = utf8 "/liveness" := by decide
  have hne : utf8 "/liveness" ≠ utf8 "/healthz" := by decide
  rw [serveHTTP_eq h hm w r world huri, mux_Handler_eq, hpath, hc]
  simp [Handler.ServeHTTP, hne]

theorem failingText_congr (q1 q2 : GoString → GoString) (es : List Error)
    (hostname : GoString) (hh : q1 hostname = q2 hostname)
    (he : ∀ e ∈ es, q1 e.Type_ = q2 e.Type_ ∧ q1 e.ErrMsg = q2 e.ErrMsg ∧
      q1 e.Description = q2 e.Description) :
    failingText q1 es hostname = failingText q2 es hostname := by
  have hm : es.map (errorText q1) = es.map (errorText q2) := by
    apply List.map_congr_left
    intro e hmem
    obtain ⟨a, b, c⟩ := he e hmem
    simp [errorText, a, b, c]
  simp [failingText, hm, hh]

/-! ## The bodies of `/healthz` -/

/-- C2, amended: when every registered probe passes, a request for the path `/healthz` (its
`RequestURI` not `*`) to the server handler of a checker that `New` returned gets status 200
and the body `{"Errors":null,"Hostname":J}` and a newline, where `J` is the hostname as the
JSON string literal that `encoding/json` writes; when every byte of the hostname is printable
ASCII other than the double quote, the backslash, `<`, `>` and `&`, that is the hostname as it
stands between double quotes. -/
theorem passing_body_hostname_as_json_string {W : Type} (config : Config W) (os : OS)
    (h : HealthChecker W) (hnew : (New config os).result = Except.ok h) (r : Request)
    (world : W) (hpath : r.Path = utf8 "/healthz") (huri : r.RequestURI ≠ utf8 "*")
    (hpass : ∀ o ∈ outcomes h.providers world, o = none) :
    (h.ServeHTTP NewRecorder r world).w.Code = 200 ∧
      (h.ServeHTTP NewRecorder r world).w.Body =
        utf8 "\x7b\"Errors\":null,\"Hostname\":" ++ jsonString h.hostname ++ utf8 "\x7d\n" ∧
      (allSafe h.hostname →
        (h.ServeHTTP NewRecorder r world).w.Body =
          utf8 "\x7b\"Errors\":null,\"Hostname\":\"" ++ h.hostname ++ utf8 "\"\x7d\n") := by
  rw [serveHTTP_healthz h (New_ok_mux config os h hnew) _ r world huri hpath]
  simp only []
  rw [handleHealthz_body, if_pos ((failing_eq_nil _ _).mpr hpass)]
  refine ⟨by rw [handleHealthz_w], rfl, ?_⟩
  intro hs
  have e : utf8 "\x7b\"Errors\":null,\"Hostname\":\"" =
    utf8 "\x7b\"Errors\":null,\"Hostname\":" ++ [0x22] := by decide
  have e2 : utf8 "\"\x7d\n" = [0x22] ++ utf8 "\x7d\n" := by decide
  rw [passingText, jsonString_safe _ hs, quoted, e, e2]
  simp [List.append_assoc]

/-- C9, amended: when at least one registered probe fails, the body of the `/healthz` response
is `{"Errors":[e1,...,ek],"Hostname":J}` and a newline, with one object
`{"Type":T,"ErrMsg":M,"Description":D}` per failing probe in registration order, the keys in
this order and spelling, where `T`, `M`, `D` and `J` are the JSON string literals that
`encoding/json` writes for the texts; when every byte of these texts is printable ASCII other
than the double quote, the backslash, `<`, `>` and `&`, the literals are the texts as they
stand between double quotes. -/
theorem failing_body_texts_as_json_strings {W : Type} (h : HealthChecker W) (r : Request)
    (world : W) (hfail : ∃ o ∈ outcomes h.providers world, o ≠ none) :
    (h.HandleHealthz NewRecorder r world).w.Body =
        failingText jsonString (failing h.providers world) h.hostname ∧
      (h.HandleHealthz NewRecorder r world).resp.Errors = some (failing h.providers world) ∧
      (allSafe h.hostname →
        (∀ e ∈ failing h.providers world,
          allSafe e.Type_ ∧ allSafe e.ErrMsg ∧ allSafe e.Description) →
        (h.HandleHealthz NewRecorder r world).w.Body =
          failingText quoted (failing h.providers world) h.hostname) := by
  have hne : ¬ failing h.providers world = [] := by
    rw [failing_eq_nil]
    obtain ⟨o, ho, hn⟩ := hfail
    exact fun hall => hn (hall o ho)
  rw [handleHealthz_body, if_neg hne, handleHealthz_resp, if_neg hne]
  refine ⟨rfl, rfl, ?_⟩
  intro hs he
  apply failingText_congr
  · exact jsonString_safe _ hs
  · intro e hmem
    obtain ⟨a, b, c⟩ := he e hmem
    exact ⟨jsonString_safe _ a, jsonString_safe _ b, jsonString_safe _ c⟩


/-! ## Liveness, construction and routing -/

/-- C5: `HandleLiveness` answers with status 200 and the body `OK` and leaves the world of the
probes as it was, whatever probes are registered: probes that record being invoked have
recorded nothing after the call.  A request for the path `/liveness` (its `RequestURI` not
`*`) to the server handler of a checker that `New` returned is answered by `HandleLiveness`. -/
theorem liveness_ok_without_checks {W : Type} (h : HealthChecker W) (r : Request)
    (world : W) :
    (h.HandleLiveness NewRecorder r world).w.Code = 200 ∧
      (h.HandleLiveness NewRecorder r world).w.Body = utf8 "OK" ∧
      (h.HandleLiveness NewRecorder r world).world = world ∧
      (∀ (ps : List (ProviderInfo W)) (srv : Server) (hostname : GoString) (log : logger),
        (HealthChecker.HandleLiveness
          { providers := recordingAll 0 ps, Server := srv, hostname := hostname, log := log }
          NewRecorder r (world, [])).world.2 = []) ∧
      (∀ (config : Config W) (os : OS), (New config os).result = Except.ok h →
        r.Path = utf8 "/liveness" → r.RequestURI ≠ utf8 "*" →
        h.ServeHTTP NewRecorder r world = h.HandleLiveness NewRecorder r world) := by
  refine ⟨rfl, ?_, rfl, fun _ _ _ _ => rfl, ?_⟩
  · simp [HealthChecker.HandleLiveness, ResponseWriter.Write, ResponseWriter.WriteHeader,
      NewRecorder]
  · intro config os hnew hpath huri
    exact serveHTTP_liveness h (New_ok_mux config os h hnew) _ r world huri hpath

/-- C6: for a `Config` whose `Log` is nil, whatever its other fields are, `New` returns the
error `required config option 'Log' not found` and no `HealthChecker`; it does not look up the
hostname and logs nothing. -/
theorem new_fails_without_logger {W : Type} (config : Config W) (os : OS)
    (hlog : config.Log = none) :
    (New config os).result = Except.error (utf8 "required config option \x27Log\x27 not found") ∧
      (New config os).os = os ∧ (New config os).log = [] := by
  simp [New, hlog]

/-- C7: for a `Config` with a logger and a hostname override that is not empty, `New` returns
a checker, leaves the operating environment untouched (`os.Hostname` is not called) and logs
nothing; in every `/healthz` response of that checker, for all outcomes of the probes, the
`Hostname` of the response value is the override, and the body holds it as JSON string under
the key `Hostname`. -/
theorem hostname_override_in_every_response {W : Type} (config : Config W) (os : OS)
    (log : logger) (hlog : config.Log = some log) (hhost : config.Hostname ≠ []) :
    (New config os).result = Except.ok (newServer config log config.Hostname) ∧
      (New config os).os = os ∧
      (New config os).log = [] ∧
      ∀ (r : Request) (world : W),
        ((newServer config log config.Hostname).HandleHealthz NewRecorder r
          world).resp.Hostname = config.Hostname ∧
        ((newServer config log config.Hostname).HandleHealthz NewRecorder r world).w.Body =
          if failing config.Providers world = [] then passingText jsonString config.Hostname
          else failingText jsonString (failing config.Providers world) config.Hostname := by
  refine ⟨by simp [New, hlog, hhost], by simp [New, hlog, hhost], by simp [New, hlog, hhost],
    ?_⟩
  intro r world
  constructor
  · rw [handleHealthz_resp]; rfl
  · rw [handleHealthz_body]; rfl

/-- C8, amended: for a request whose path is neither `/healthz` nor `/liveness`, the server
handler of a checker that `New` returned selects neither `HandleHealthz` nor `HandleLiveness`,
logs nothing and leaves the world of the probes as it was.  Its status is 404 when the path is
in canonical form (`cleanPath` returns it unchanged) or the method is `CONNECT`, 301 (a
redirect to the cleaned path) when the path is not in canonical form, and 400 when the
`RequestURI` is `*`. -/
theorem unregistered_path_not_found_or_redirect {W : Type} (config : Config W) (os : OS)
    (h : HealthChecker W) (hnew : (New config os).result = Except.ok h) (r : Request)
    (world : W) (h1 : r.Path ≠ utf8 "/healthz") (h2 : r.Path ≠ utf8 "/liveness") :
    (h.Server.Handler.Handler r).1 ≠ Handler.HandleHealthz ∧
      (h.Server.Handler.Handler r).1 ≠ Handler.HandleLiveness ∧
      (h.ServeHTTP NewRecorder r world).world = world ∧
      (h.ServeHTTP NewRecorder r world).log = [] ∧
      (h.ServeHTTP NewRecorder r world).w.Code =
        if r.RequestURI = utf8 "*" then 400
        else if r.Method ≠ utf8 "CONNECT" ∧ cleanPath r.Path ≠ r.Path then 301
        else 404 := by
  have hm := New_ok_mux config os h hnew
  have hsel : (healthzMux.Handler r).1 =
      if r.Method ≠ utf8 "CONNECT" ∧ cleanPath r.Path ≠ r.Path then
        Handler.Redirect (cleanPath r.Path) StatusMovedPermanently
      else Handler.NotFound := by
    rw [mux_Handler_eq, if_neg h1, if_neg h2]
  rw [hm]
  refine ⟨?_, ?_, ?_, ?_, ?_⟩
  · rw [hsel]; split <;> simp
  · rw [hsel]; split <;> simp
  · by_cases huri : r.RequestURI = utf8 "*"
    · simp [HealthChecker.ServeHTTP, huri]
    · rw [serveHTTP_eq h hm _ r world huri, hsel]
      split <;> rfl
  · by_cases huri : r.RequestURI = utf8 "*"
    · simp [HealthChecker.ServeHTTP, huri]
    · rw [serveHTTP_eq h hm _ r world huri, hsel]
      split <;> rfl
  · by_cases huri : r.RequestURI = utf8 "*"
    · rw [if_pos huri]
      simp only [HealthChecker.ServeHTTP, if_pos huri]
      split <;> rfl
    · rw [if_neg huri, serveHTTP_eq h hm _ r world huri, hsel]
      split <;> rfl


/-! ## Instances -/

/-- The amended C2 at `TestHappy`: one passing probe, hostname `tester`. -/
theorem passing_body_witness :
    (∀ o ∈ outcomes (testChecker happyProviders).providers (), o = none) ∧
      ((testChecker happyProviders).ServeHTTP NewRecorder (getRequest "/healthz") ()).w.Code = 200 ∧
      ((testChecker happyProviders).ServeHTTP NewRecorder (getRequest "/healthz") ()).w.Body =
        utf8 "\x7b\"Errors\":null,\"Hostname\":\"tester\"\x7d\n" := by
  have hp : ∀ o ∈ outcomes (testChecker happyProviders).providers (), o = none := by decide
  have hs : allSafe (testChecker happyProviders).hostname := by unfold allSafe; decide
  have h := passing_body_hostname_as_json_string (testConfig happyProviders) testOS
    (testChecker happyProviders) rfl (getRequest "/healthz") () (by decide) (by decide) hp
  exact ⟨hp, h.1, (h.2.2 hs).trans (by decide)⟩

/-- C2 fails for the hostname `R&D` and no probes: the body holds `"R\u0026D"`, not `"R&D"`. -/
theorem passing_body_ampersand_counterexample :
    (∀ o ∈ outcomes ampersandConfig.Providers (), o = none) ∧
      (serve ampersandConfig testOS (getRequest "/healthz") ()).map (fun res => res.w.Body) =
        some (utf8 "\x7b\"Errors\":null,\"Hostname\":\"R\\u0026D\"\x7d\n") ∧
      (serve ampersandConfig testOS (getRequest "/healthz") ()).map (fun res => res.w.Body) ≠
        some (utf8 "\x7b\"Errors\":null,\"Hostname\":\"" ++ ampersandConfig.Hostname ++
          utf8 "\"\x7d\n") := by
  decide

/-- C5 at the checker of `TestUnhappy` and the request `GET /liveness`. -/
theorem liveness_witness :
    (New (testConfig unhappyProviders) testOS).result =
        Except.ok (testChecker unhappyProviders) ∧
      ((testChecker unhappyProviders).ServeHTTP NewRecorder (getRequest "/liveness") ()).w.Code
        = 200 ∧
      ((testChecker unhappyProviders).ServeHTTP NewRecorder (getRequest "/liveness") ()).w.Body
        = utf8 "OK" := by
  have h := liveness_ok_without_checks (testChecker unhappyProviders) (getRequest "/liveness") ()
  have hr := h.2.2.2.2 (testConfig unhappyProviders) testOS rfl (by decide) (by decide)
  exact ⟨rfl, hr ▸ h.1, hr ▸ h.2.1⟩

/-- C6 at a configuration with a hostname and three providers, but no logger. -/
theorem new_without_logger_witness :
    noLogConfig.Log = none ∧ noLogConfig.Hostname = utf8 "tester" ∧
      (New noLogConfig testOS).result =
        Except.error (utf8 "required config option \x27Log\x27 not found") :=
  ⟨rfl, rfl, (new_fails_without_logger noLogConfig testOS rfl).1⟩

/-- C7 at the configuration of `TestMultipleOneUnhappy`, hostname `tester`. -/
theorem hostname_override_witness :
    (testConfig multipleProviders).Hostname = utf8 "tester" ∧
      (New (testConfig multipleProviders) testOS).os = testOS ∧
      ((testChecker multipleProviders).HandleHealthz NewRecorder (getRequest "/healthz")
        ()).resp.Hostname = utf8 "tester" :=
  have h := hostname_override_in_every_response (testConfig multipleProviders) testOS
    { name := "testLogger" } rfl (by decide)
  ⟨rfl, h.2.1, (h.2.2.2 (getRequest "/healthz") ()).1⟩

/-- C8 fails for the path `//healthz`: the mux answers 301, a redirect to `/healthz`. -/
theorem double_slash_counterexample :
    (getRequest "//healthz").Path ≠ utf8 "/healthz" ∧ (getRequest "//healthz").Path ≠ utf8 "/liveness" ∧
      (serve (testConfig happyProviders) testOS (getRequest "//healthz") ()).map
        (fun res => res.w.Code) = some 301 := by
  decide

/-- The amended C8 at `TestNotFound`: `GET /` gets 404. -/
theorem not_found_witness :
    (getRequest "/").Path ≠ utf8 "/healthz" ∧ (getRequest "/").Path ≠ utf8 "/liveness" ∧
      ((testChecker happyProviders).ServeHTTP NewRecorder (getRequest "/") ()).w.Code = 404 := by
  have h := unregistered_path_not_found_or_redirect (testConfig happyProviders) testOS
    (testChecker happyProviders) rfl (getRequest "/") () (by decide) (by decide)
  exact ⟨by decide, by decide, h.2.2.2.2.trans (by decide)⟩

/-- The amended C9 at `TestUnhappy`: the body the test expects. -/
theorem failing_body_witness :
    (∃ o ∈ outcomes (testChecker unhappyProviders).providers (), o ≠ none) ∧
      ((testChecker unhappyProviders).HandleHealthz NewRecorder (getRequest "/healthz") ()).w.Body =
        utf8 ("\x7b\"Errors\":[\x7b\"Type\":\"DBConn\",\"ErrMsg\":\"failed\",\"Description\":" ++
          "\"Ensure the database connection is up\"\x7d],\"Hostname\":\"tester\"\x7d\n") := by
  have hf : ∃ o ∈ outcomes (testChecker unhappyProviders).providers (), o ≠ none := by decide
  have h := failing_body_texts_as_json_strings (testChecker unhappyProviders)
    (getRequest "/healthz") () hf
  have hs : allSafe (testChecker unhappyProviders).hostname := by unfold allSafe; decide
  have he : ∀ e ∈ failing (testChecker unhappyProviders).providers (),
      allSafe e.Type_ ∧ allSafe e.ErrMsg ∧ allSafe e.Description := by
    unfold allSafe; decide
  exact ⟨hf, (h.2.2 hs he).trans (by decide)⟩

/-- C9 fails for a probe whose error text holds double quotes: the body holds them with a
backslash before each. -/
theorem failing_body_quotes_counterexample :
    (∃ o ∈ outcomes quoteProviders (), o ≠ none) ∧
      (serve (testConfig quoteProviders) testOS (getRequest "/healthz") ()).map
          (fun res => res.w.Body) =
        some (utf8 ("\x7b\"Errors\":[\x7b\"Type\":\"Config\",\"ErrMsg\":" ++
          "\"parsing \\\"x\\\": invalid syntax\",\"Description\":" ++
          "\"Ensure the port is a number\"\x7d],\"Hostname\":\"tester\"\x7d\n")) ∧
      (serve (testConfig quoteProviders) testOS (getRequest "/healthz") ()).map
          (fun res => res.w.Body) ≠
        some (utf8 ("\x7b\"Errors\":[\x7b\"Type\":\"Config\",\"ErrMsg\":" ++
          "\"parsing \"x\": invalid syntax\",\"Description\":" ++
          "\"Ensure the port is a number\"\x7d],\"Hostname\":\"tester\"\x7d\n")) := by
  decide

/-- The model gives the body that `TestMultipleOneUnhappy` expects: the two passing probes
add nothing to it. -/
theorem test_multiple_one_unhappy :
    (serve (testConfig multipleProviders) testOS (getRequest "/healthz") ()).map
        (fun res => (res.w.Code, res.w.Body)) =
      some (200,
        utf8 ("\x7b\"Errors\":[\x7b\"Type\":\"DBConn\",\"ErrMsg\":\"failed\",\"Description\":" ++
          "\"Ensure the database connection is up\"\x7d],\"Hostname\":\"tester\"\x7d\n")) := by
  decide

/-- The model gives the body that `TestNoProviders` expects. -/
theorem test_no_providers :
    (serve (testConfig []) testOS (getRequest "/healthz") ()).map
        (fun res => (res.w.Code, res.w.Body)) =
      some (200, utf8 "\x7b\"Errors\":null,\"Hostname\":\"tester\"\x7d\n") := by
  decide

end Healthz
